import Mathlib

/-!
Shallow embedding of `core/controller.py` (pymdht): the Controller's peer
cache, tick scheduling and event dispatch.  Collaborators (querier, routing
manager, lookup manager, experimental manager, responder) are modelled as
oracle inputs: each embedded entry point receives the values those
collaborators return during the call.  Python floats (timestamps) are
modelled as rationals, Python lists as Lean lists, `None` as `Option.none`,
and Python truthiness of a list `l` as `l ≠ []`.  The `NameError` raised on
the undefined name `datagrams_to_send` in `_on_timeout` is modelled with
`Except`.  Each clock read inside one operation is idealised as a single
`now` parameter; the two reads of `main_loop` are kept distinct (`now`,
`now2`) because they guard different sweeps.
-/

abbrev Time := ℚ
abbrev InfoHash := ℕ
abbrev Peer := ℕ
abbrev Addr := ℕ
abbrev Query := ℕ

/-- A DHT node: `(socket address, node id)`; the version tag is irrelevant here. -/
structure Node where
  addr : Addr
  id : ℕ
deriving DecidableEq, Repr

/-- One entry of `Controller._cached_lookups`: the tuple `(ts, info_hash, peers)`. -/
structure CachedLookup where
  ts : Time
  infoHash : InfoHash
  peers : List Peer
deriving DecidableEq, Repr

/-- `CACHE_VALID_PERIOD = 5 * 60` seconds (controller.py line 38). -/
def CACHE_VALID_PERIOD : Time := 5 * 60

/-- The Controller state read or written by the embedded entry points. -/
structure Controller where
  my_id : ℕ
  next_maintenance_ts : Time
  next_timeout_ts : Time
  next_main_loop_call_ts : Time
  cached_lookups : List CachedLookup
deriving DecidableEq, Repr

/-- `Controller._get_cached_peers`: linear scan; return the peers of the first
entry with `ts > now - CACHE_VALID_PERIOD` and matching info-hash; `None`
(here `none`) when the loop falls through. -/
def get_cached_peers (now : Time) (cache : List CachedLookup) (info_hash : InfoHash) :
    Option (List Peer) :=
  match cache with
  | [] => none
  | e :: rest =>
      if e.ts > now - CACHE_VALID_PERIOD ∧ info_hash = e.infoHash then some e.peers
      else get_cached_peers now rest info_hash

/-- `Controller._add_cache_peers`: delete entries from the front while the head
is strictly older than `now - CACHE_VALID_PERIOD`; then either extend the last
entry's peer batch in place (same info-hash) or append a fresh entry at `now`. -/
def add_cache_peers (now : Time) (cache : List CachedLookup) (info_hash : InfoHash)
    (peers : List Peer) : List CachedLookup :=
  let pruned := cache.dropWhile (fun e => decide (e.ts < now - CACHE_VALID_PERIOD))
  match pruned.getLast? with
  | some last =>
      if last.infoHash = info_hash then
        pruned.dropLast ++ [{ last with peers := last.peers ++ peers }]
      else pruned ++ [⟨now, info_hash, peers⟩]
  | none => [⟨now, info_hash, peers⟩]

/-- Observable actions of a Controller call, in execution order: user-callback
invocations, cache writes, and notifications of collaborators. -/
inductive Event
  | callback (lookup_id : ℕ) (peers : Option (List Peer)) (node : Option Node)
  | cacheAdd (info_hash : InfoHash) (peers : List Peer)
  | expNotify
  | routingNotify
  | responderCall
  | lookupCreate
deriving DecidableEq, Repr

/-- An outbound UDP datagram.  `rawQuery` records the source bug in the ERROR
branch where unserialised query objects are appended to the datagram list. -/
inductive Datagram
  | wire (payload : ℕ) (addr : Addr)
  | rawQuery (q : Query)
deriving DecidableEq, Repr

/-- Value returned by `querier.register_queries(queries)`. -/
structure RegResult where
  timeout_call_ts : Time
  datagrams : List Datagram

/-- Oracle for the querier's `register_queries`. -/
abbrev RegOracle := List Query → RegResult

/-- `Controller._register_queries`: empty input short-circuits; otherwise the
querier registers the queries and `next_main_loop_call_ts` is lowered to the
earliest outstanding deadline. -/
def register_queries (reg : RegOracle) (c : Controller) (qs : List Query) :
    Controller × List Datagram :=
  if qs = [] then (c, [])
  else
    ({ c with next_main_loop_call_ts := min c.next_main_loop_call_ts (reg qs).timeout_call_ts },
     (reg qs).datagrams)

/-- Responses of a timed-out query's bound `LookupObject` (`on_timeout`,
`callback_f`, `lookup_id`, `announce`). -/
structure LookupTimeoutData where
  queries : List Query
  done : Bool
  callback : Bool
  lookup_id : ℕ
  announceQueries : List Query

/-- One timed-out query together with its collaborators' responses:
`experimental_m.on_timeout`, the optional bound lookup, `routing_m.on_timeout`. -/
structure TimeoutCase where
  expQueries : List Query
  lookupObj : Option LookupTimeoutData
  maintenanceQueries : List Query

/-- The only exception the embedded code can raise: the `NameError` on the
undefined `datagrams_to_send` in `_on_timeout`. -/
inductive PyError
  | nameError
deriving DecidableEq, Repr

/-- Result of `Controller._on_timeout`: state after the call, events emitted,
and either the accumulated queries or the raised exception. -/
structure TimeoutResult where
  ctrl : Controller
  events : List Event
  result : Except PyError (List Query)

/-- `Controller._on_timeout` (controller.py lines 325-349).  When the
experimental manager returned a non-empty list, the source registers those
queries and then evaluates the undefined name `datagrams_to_send`, raising
`NameError` after the registration's state update. -/
def on_timeout (reg : RegOracle) (c : Controller) (tc : TimeoutCase) : TimeoutResult :=
  let lk : List Query × List Event :=
    match tc.lookupObj with
    | none => ([], [])
    | some lo =>
        if lo.done then
          (lo.queries ++ lo.announceQueries,
           if lo.callback then [Event.callback lo.lookup_id none none] else [])
        else (lo.queries, [])
  let queries := if tc.maintenanceQueries = [] then lk.1 else lk.1 ++ tc.maintenanceQueries
  let events := Event.expNotify :: lk.2 ++ [Event.routingNotify]
  if tc.expQueries = [] then
    { ctrl := c, events := events, result := Except.ok queries }
  else
    { ctrl := (register_queries reg c tc.expQueries).1, events := events,
      result := Except.error PyError.nameError }

/-- The `for query in timeout_queries` loop of `main_loop`: dispatch each
timed-out query through `_on_timeout`, accumulating queries until an
exception propagates. -/
def process_timeouts (reg : RegOracle) (c : Controller) (acc : List Query)
    (evs : List Event) : List TimeoutCase → Controller × List Event × Except PyError (List Query)
  | [] => (c, evs, Except.ok acc)
  | tc :: rest =>
      let r := on_timeout reg c tc
      match r.result with
      | Except.error e => (r.ctrl, evs ++ r.events, Except.error e)
      | Except.ok qs => process_timeouts reg r.ctrl (acc ++ qs) (evs ++ r.events) rest

/-- `routing_m.do_maintenance()` plus, when a maintenance lookup is produced,
the queries from `lookup_obj.start(rnodes)`. -/
structure MaintenanceCase where
  delay : Time
  queries : List Query
  lookup : Option (List Query)

/-- All inputs of one `main_loop` call: the two clock reads, the querier's
timeout sweep, the maintenance responses, and the registration oracle. -/
structure TickInput where
  now : Time
  now2 : Time
  sweep : Time × List TimeoutCase
  maintenance : MaintenanceCase
  reg : RegOracle

/-- Result of `main_loop`: final state, events, and either the returned
`(next_main_loop_call_ts, datagrams)` pair or the propagated exception. -/
structure TickResult where
  ctrl : Controller
  events : List Event
  result : Except PyError (Time × List Datagram)

/-- `Controller.main_loop` (controller.py lines 144-191). -/
def main_loop (inp : TickInput) (c : Controller) : TickResult :=
  if inp.now ≥ c.next_main_loop_call_ts then
    let c1 := { c with next_main_loop_call_ts := inp.now + 1 }
    let sw : Controller × List Event × Except PyError (List Query) :=
      if inp.now ≥ c1.next_timeout_ts then
        process_timeouts inp.reg { c1 with next_timeout_ts := inp.sweep.1 } [] [] inp.sweep.2
      else (c1, [], Except.ok [])
    match sw with
    | (c2, evs, Except.error e) => { ctrl := c2, events := evs, result := Except.error e }
    | (c2, evs, Except.ok queries) =>
        let mnt : Controller × List Query :=
          if inp.now2 ≥ c2.next_maintenance_ts then
            let c4 := { c2 with
              next_maintenance_ts := inp.now + inp.maintenance.delay,
              next_main_loop_call_ts :=
                min c2.next_main_loop_call_ts (inp.now + inp.maintenance.delay) }
            let qs := queries ++ inp.maintenance.queries
            (c4, match inp.maintenance.lookup with
                 | some lqs => qs ++ lqs
                 | none => qs)
          else (c2, queries)
        let fin := register_queries inp.reg mnt.1 mnt.2
        { ctrl := fin.1, events := evs,
          result := Except.ok (fin.1.next_main_loop_call_ts, fin.2) }
  else { ctrl := c, events := [], result := Except.ok (c.next_main_loop_call_ts, []) }

/-- Message kinds of `message.QUERY / RESPONSE / ERROR` plus an unknown tag. -/
inductive MsgKind
  | query
  | response
  | error
  | other
deriving DecidableEq, Repr

/-- The decoded message fields the Controller inspects. -/
structure Msg where
  type : MsgKind
  src_node : Node
  tid : ℕ
deriving DecidableEq, Repr

/-- Responses of the `LookupObject` bound to a matched outstanding query:
`on_response_received` / `on_error_received` results, callback data, and the
`announce()` queries. -/
structure LookupRespData where
  lookup_id : ℕ
  infoHash : InfoHash
  callback : Bool
  queries : List Query
  peers : List Peer
  done : Bool
  announceQueries : List Query

/-- The outstanding query found by `querier.get_related_query`. -/
structure RelatedData where
  lookupObj : Option LookupRespData

/-- All inputs of one `on_datagram_received` call: the decoded message (or
decode failure), the source address, and the collaborators' responses. -/
structure DatagramInput where
  now : Time
  decoded : Option Msg
  addr : Addr
  expQueries : List Query
  responderResponse : Option ℕ
  related : Option RelatedData
  maintenanceQueries : List Query
  reg : RegOracle

/-- Result of `on_datagram_received`: final state, events, and the returned
`(next_main_loop_call_ts, datagrams)` pair. -/
structure DgramResult where
  ctrl : Controller
  events : List Event
  next_tick_ts : Time
  datagrams : List Datagram

/-- Common tail of `on_datagram_received` (controller.py lines 309-316):
register the maintenance queries, then the experimental queries when
non-empty, and return `(next_main_loop_call_ts, datagrams)`. -/
def finish_datagram (inp : DatagramInput) (c : Controller) (evs : List Event)
    (dgs : List Datagram) : DgramResult :=
  let m := register_queries inp.reg c inp.maintenanceQueries
  if inp.expQueries = [] then
    { ctrl := m.1, events := evs, next_tick_ts := m.1.next_main_loop_call_ts,
      datagrams := dgs ++ m.2 }
  else
    let e := register_queries inp.reg m.1 inp.expQueries
    { ctrl := e.1, events := evs, next_tick_ts := e.1.next_main_loop_call_ts,
      datagrams := dgs ++ m.2 ++ e.2 }

/-- `Controller.on_datagram_received` (controller.py lines 196-316). -/
def on_datagram_received (inp : DatagramInput) (c : Controller) : DgramResult :=
  match inp.decoded with
  | none => { ctrl := c, events := [], next_tick_ts := c.next_main_loop_call_ts, datagrams := [] }
  | some msg =>
    match msg.type with
    | MsgKind.query =>
        if msg.src_node.id = c.my_id then
          { ctrl := c, events := [], next_tick_ts := c.next_main_loop_call_ts, datagrams := [] }
        else
          let dgs : List Datagram :=
            match inp.responderResponse with
            | some payload => [Datagram.wire payload inp.addr]
            | none => []
          finish_datagram inp c
            [Event.expNotify, Event.responderCall, Event.routingNotify] dgs
    | MsgKind.response =>
        match inp.related with
        | none =>
            { ctrl := c, events := [], next_tick_ts := c.next_main_loop_call_ts, datagrams := [] }
        | some rel =>
            let main : Controller × List Event × List Datagram :=
              match rel.lookupObj with
              | none => (c, [], [])
              | some lo =>
                  let r1 := register_queries inp.reg c lo.queries
                  let st2 : Controller × List Event :=
                    if lo.peers = [] then (r1.1, [])
                    else
                      ({ r1.1 with cached_lookups :=
                           add_cache_peers inp.now r1.1.cached_lookups lo.infoHash lo.peers },
                       Event.cacheAdd lo.infoHash lo.peers ::
                         (if lo.callback then
                            [Event.callback lo.lookup_id (some lo.peers) (some msg.src_node)]
                          else []))
                  if lo.done then
                    let evs3 := if lo.callback then
                        [Event.callback lo.lookup_id none (some msg.src_node)] else []
                    let r2 := register_queries inp.reg st2.1 lo.announceQueries
                    (r2.1, st2.2 ++ evs3, r1.2 ++ r2.2)
                  else (st2.1, st2.2, r1.2)
            finish_datagram inp main.1 (Event.expNotify :: main.2.1 ++ [Event.routingNotify])
              main.2.2
    | MsgKind.error =>
        match inp.related with
        | none =>
            { ctrl := c, events := [], next_tick_ts := c.next_main_loop_call_ts, datagrams := [] }
        | some rel =>
            let main : Controller × List Event × List Datagram :=
              match rel.lookupObj with
              | none => (c, [], [])
              | some lo =>
                  let r1 := register_queries inp.reg c lo.queries
                  let evs := if lo.callback ∧ lo.done then
                      [Event.callback lo.lookup_id none (some msg.src_node)] else []
                  if lo.done then
                    (r1.1, evs, r1.2 ++ lo.announceQueries.map Datagram.rawQuery)
                  else (r1.1, evs, r1.2)
            finish_datagram inp main.1 (Event.expNotify :: main.2.1 ++ [Event.routingNotify])
              main.2.2
    | MsgKind.other =>
        { ctrl := c, events := [], next_tick_ts := c.next_main_loop_call_ts, datagrams := [] }

/-- All inputs of one `get_peers` call: the clock, the responder tracker's
peers for the info-hash (`[]` for `None`), the queries from
`lookup_obj.start`, and the registration oracle. -/
structure GetPeersInput where
  now : Time
  trackerPeers : List Peer
  startQueries : List Query
  reg : RegOracle

/-- Result of `get_peers`: final state, events, returned datagrams. -/
structure GetPeersResult where
  ctrl : Controller
  events : List Event
  datagrams : List Datagram

/-- The non-cache path of `Controller.get_peers` (controller.py lines 99-120):
create the lookup, merge tracker peers into the cache (with one callback when
callable), start the lookup and register its queries. -/
def get_peers_lookup (inp : GetPeersInput) (c : Controller) (lookup_id : ℕ)
    (info_hash : InfoHash) (callback : Bool) : GetPeersResult :=
  let st : Controller × List Event :=
    if inp.trackerPeers = [] then (c, [])
    else
      ({ c with cached_lookups :=
           add_cache_peers inp.now c.cached_lookups info_hash inp.trackerPeers },
       Event.cacheAdd info_hash inp.trackerPeers ::
         (if callback then [Event.callback lookup_id (some inp.trackerPeers) none] else []))
  let r := register_queries inp.reg st.1 inp.startQueries
  { ctrl := r.1, events := Event.lookupCreate :: st.2, datagrams := r.2 }

/-- `Controller.get_peers` (controller.py lines 80-120).  `callback` is true
when `callback_f` is set and callable. -/
def get_peers (inp : GetPeersInput) (c : Controller) (lookup_id : ℕ) (info_hash : InfoHash)
    (callback : Bool) (_bt_port : ℕ) (use_cache : Bool) : GetPeersResult :=
  if use_cache then
    match get_cached_peers inp.now c.cached_lookups info_hash with
    | some ps =>
        if ps ≠ [] ∧ callback then
          { ctrl := c,
            events := [Event.callback lookup_id (some ps) none,
                       Event.callback lookup_id none none],
            datagrams := [] }
        else get_peers_lookup inp c lookup_id info_hash callback
    | none => get_peers_lookup inp c lookup_id info_hash callback
  else get_peers_lookup inp c lookup_id info_hash callback

/-! ## Cache lemmas -/

/-- C4 (amended): `_get_cached_peers` scans entries in order and returns the
peers of the first entry matching the info-hash whose age `now - entry.ts` is
strictly below 300 s (the window is exclusive at exactly 300 s), and returns
`none` when no such entry exists; every entry it returns satisfies
`now - entry.ts < 300 s`. -/
theorem C4_cache_window_strict_first_match
    (now : Time) (cache : List CachedLookup) (ih : InfoHash) :
    (∀ ps, get_cached_peers now cache ih = some ps →
      ∃ pre e post, cache = pre ++ e :: post ∧ ps = e.peers ∧ e.infoHash = ih ∧
        now - e.ts < CACHE_VALID_PERIOD ∧
        ∀ e' ∈ pre, ¬(e'.ts > now - CACHE_VALID_PERIOD ∧ ih = e'.infoHash)) ∧
    (get_cached_peers now cache ih = none →
      ∀ e ∈ cache, ¬(e.ts > now - CACHE_VALID_PERIOD ∧ ih = e.infoHash)) := by
  induction cache with
  | nil =>
      refine ⟨fun ps h => by simp [get_cached_peers] at h, fun _ e he => absurd he (by simp)⟩
  | cons x xs ihx =>
      constructor
      · intro ps h
        by_cases hx : x.ts > now - CACHE_VALID_PERIOD ∧ ih = x.infoHash
        · refine ⟨[], x, xs, by simp, ?_, hx.2.symm, by linarith [hx.1], by simp⟩
          simpa [get_cached_peers, hx] using h.symm
        · have h' : get_cached_peers now xs ih = some ps := by
            simpa [get_cached_peers, hx] using h
          obtain ⟨pre, e, post, hsplit, hps, hih, hts, hpre⟩ := (ihx.1) ps h'
          exact ⟨x :: pre, e, post, by simp [hsplit], hps, hih, hts, by
            intro e' he'
            rcases List.mem_cons.mp he' with rfl | hmem
            · exact hx
            · exact hpre e' hmem⟩
      · intro h e he
        by_cases hx : x.ts > now - CACHE_VALID_PERIOD ∧ ih = x.infoHash
        · simp [get_cached_peers, hx] at h
        · have h' : get_cached_peers now xs ih = none := by
            simpa [get_cached_peers, hx] using h
          rcases List.mem_cons.mp he with rfl | hmem
          · exact hx
          · exact (ihx.2) h' e hmem

/-- C4 counterexample: an entry aged exactly 300 s lies inside the claimed
inclusive window (`now - ts ≤ 300`), yet `_get_cached_peers` does not return
it: the scan requires `ts > now - 300` strictly. -/
theorem C4_counterexample :
    get_cached_peers 300 [⟨0, 7, [1, 2]⟩] 7 = none ∧ (300 : Time) - 0 ≤ 300 := by
  constructor
  · norm_num [get_cached_peers, CACHE_VALID_PERIOD]
  · norm_num

/-- C4 witness: the first-match characterization applied to a concrete
one-entry cache holding a fresh entry. -/
theorem C4_witness :
    ∃ pre e post, ([⟨100, 7, [5]⟩] : List CachedLookup) = pre ++ e :: post ∧
      ([5] : List Peer) = e.peers ∧ e.infoHash = 7 ∧
      (200 : Time) - e.ts < CACHE_VALID_PERIOD ∧
      ∀ e' ∈ pre, ¬(e'.ts > (200 : Time) - CACHE_VALID_PERIOD ∧ 7 = e'.infoHash) :=
  (C4_cache_window_strict_first_match 200 [⟨100, 7, [5]⟩] 7).1 [5]
    (by norm_num [get_cached_peers, CACHE_VALID_PERIOD])

/-- Entries surviving the prune loop of `_add_cache_peers` are all recent,
provided the cache is in non-decreasing timestamp order. -/
theorem dropWhile_old_all_recent (bound : Time) (cache : List CachedLookup)
    (hsorted : cache.Pairwise (fun a b => a.ts ≤ b.ts)) :
    ∀ e ∈ cache.dropWhile (fun e => decide (e.ts < bound)), ¬(e.ts < bound) := by
  induction cache with
  | nil => simp
  | cons x xs ihx =>
      intro e he
      rw [List.dropWhile_cons] at he
      by_cases hx : x.ts < bound
      · simp only [hx, decide_eq_true_eq, if_pos] at he
        exact ihx hsorted.of_cons e he
      · simp only [decide_eq_true_eq, hx, if_neg, not_false_iff] at he
        rcases List.mem_cons.mp he with rfl | hmem
        · exact hx
        · have hle : x.ts ≤ e.ts := (List.pairwise_cons.mp hsorted).1 e hmem
          intro habs
          exact hx (lt_of_le_of_lt hle habs)

/-- C5: `_add_cache_peers` drops the maximal prefix of entries strictly older
than `now - 5 min`; on a timestamp-sorted cache the survivors are exactly a
suffix of recent entries, the insertion either extends the newest surviving
entry in place (same info-hash, original timestamp kept) or appends a fresh
entry at `now`, and the result is again in non-decreasing timestamp order. -/
theorem C5_cache_insert (now : Time) (cache : List CachedLookup) (ih : InfoHash)
    (ps : List Peer)
    (hsorted : cache.Pairwise (fun a b => a.ts ≤ b.ts))
    (hnow : ∀ e ∈ cache, e.ts ≤ now) :
    ∃ dropped kept, cache = dropped ++ kept ∧
      (∀ e ∈ dropped, e.ts < now - CACHE_VALID_PERIOD) ∧
      (∀ e ∈ kept, ¬(e.ts < now - CACHE_VALID_PERIOD)) ∧
      add_cache_peers now cache ih ps =
        (match kept.getLast? with
         | some last =>
             if last.infoHash = ih then
               kept.dropLast ++ [⟨last.ts, last.infoHash, last.peers ++ ps⟩]
             else kept ++ [⟨now, ih, ps⟩]
         | none => [⟨now, ih, ps⟩]) ∧
      (add_cache_peers now cache ih ps).Pairwise (fun a b => a.ts ≤ b.ts) := by
  classical
  set p : CachedLookup → Bool := fun e => decide (e.ts < now - CACHE_VALID_PERIOD) with hp
  refine ⟨cache.takeWhile p, cache.dropWhile p,
    (List.takeWhile_append_dropWhile p cache).symm, ?_, ?_, ?_, ?_⟩
  · intro e he
    have := List.mem_takeWhile_imp he
    simpa [hp] using this
  · exact dropWhile_old_all_recent (now - CACHE_VALID_PERIOD) cache hsorted
  · rfl
  · have hkept : (cache.dropWhile p).Pairwise (fun a b => a.ts ≤ b.ts) :=
      hsorted.sublist (List.dropWhile_sublist p)
    have hsub : ∀ e ∈ cache.dropWhile p, e ∈ cache :=
      fun e he => (List.dropWhile_sublist p).subset he
    rw [add_cache_peers]
    rcases hlast : (cache.dropWhile p).getLast? with _ | last
    · simp
    · have hsplit : (cache.dropWhile p).dropLast ++ [last] = cache.dropWhile p :=
        List.dropLast_append_getLast? last hlast
      by_cases hih : last.infoHash = ih
      · simp only [hih, if_true]
        have hkept' : ((cache.dropWhile p).dropLast ++ [last]).Pairwise
            (fun a b => a.ts ≤ b.ts) := by rw [hsplit]; exact hkept
        rw [List.pairwise_append] at hkept' ⊢
        refine ⟨hkept'.1, by simp, ?_⟩
        intro a ha b hb
        simp only [List.mem_singleton] at hb
        subst hb
        exact hkept'.2.2 a ha last (by simp)
      · simp only [hih, if_false]
        rw [List.pairwise_append]
        refine ⟨hkept, by simp, ?_⟩
        intro a ha b hb
        simp only [List.mem_singleton] at hb
        subst hb
        exact hnow a (hsub a ha)

/-- C5 witness: inserting into a concrete two-entry sorted cache at `now = 400`
prunes the stale head and extends the surviving entry in place. -/
theorem C5_witness :
    ∃ dropped kept,
      ([⟨50, 3, [8]⟩, ⟨200, 7, [5]⟩] : List CachedLookup) = dropped ++ kept ∧
      (∀ e ∈ dropped, e.ts < (400 : Time) - CACHE_VALID_PERIOD) ∧
      (∀ e ∈ kept, ¬(e.ts < (400 : Time) - CACHE_VALID_PERIOD)) ∧
      add_cache_peers 400 [⟨50, 3, [8]⟩, ⟨200, 7, [5]⟩] 7 [6] =
        (match kept.getLast? with
         | some last =>
             if last.infoHash = 7 then
               kept.dropLast ++ [⟨last.ts, last.infoHash, last.peers ++ [6]⟩]
             else kept ++ [⟨400, 7, [6]⟩]
         | none => [⟨400, 7, [6]⟩]) ∧
      (add_cache_peers 400 [⟨50, 3, [8]⟩, ⟨200, 7, [5]⟩] 7 [6]).Pairwise
        (fun a b => a.ts ≤ b.ts) :=
  C5_cache_insert 400 [⟨50, 3, [8]⟩, ⟨200, 7, [5]⟩] 7 [6]
    (by norm_num) (by norm_num)

/-! ## get_peers claims -/

/-- C3: with `use_cache` true, a non-expired cache entry for the info-hash
(with a non-empty peer batch, as every reachable cache entry has) and a
callable callback, `get_peers` invokes the callback exactly twice — first
with `(lookup_id, peers, nil)`, then `(lookup_id, nil, nil)` — returns no
datagrams, leaves the state untouched, and creates no lookup. -/
theorem C3_cache_hit (inp : GetPeersInput) (c : Controller) (lookup_id : ℕ)
    (ih : InfoHash) (ps : List Peer) (bt : ℕ)
    (hhit : get_cached_peers inp.now c.cached_lookups ih = some ps)
    (hps : ps ≠ []) :
    get_peers inp c lookup_id ih true bt true =
      { ctrl := c,
        events := [Event.callback lookup_id (some ps) none,
                   Event.callback lookup_id none none],
        datagrams := [] } := by
  simp [get_peers, hhit, hps]

/-- C3 witness: a concrete cache hit. -/
theorem C3_witness :
    get_peers ⟨0, [], [], fun _ => ⟨0, []⟩⟩ ⟨1, 0, 0, 0, [⟨0, 9, [4]⟩]⟩ 42 9 true 6881 true =
      { ctrl := ⟨1, 0, 0, 0, [⟨0, 9, [4]⟩]⟩,
        events := [Event.callback 42 (some [4]) none, Event.callback 42 none none],
        datagrams := [] } :=
  C3_cache_hit ⟨0, [], [], fun _ => ⟨0, []⟩⟩ ⟨1, 0, 0, 0, [⟨0, 9, [4]⟩]⟩ 42 9 [4] 6881
    (by norm_num [get_cached_peers, CACHE_VALID_PERIOD]) (by simp)

/-- C10: with `use_cache` true and a non-expired cache entry present but no
callable callback, the cache short-circuit does not apply: no callback is
invoked, a lookup is created and started, and the datagrams of the
registered start queries are returned. -/
theorem C10_nil_callback (inp : GetPeersInput) (c : Controller) (lookup_id : ℕ)
    (ih : InfoHash) (ps : List Peer) (bt : ℕ)
    (hhit : get_cached_peers inp.now c.cached_lookups ih = some ps) :
    (∀ lid pr nd, Event.callback lid pr nd ∉ (get_peers inp c lookup_id ih false bt true).events) ∧
    Event.lookupCreate ∈ (get_peers inp c lookup_id ih false bt true).events ∧
    (get_peers inp c lookup_id ih false bt true).datagrams =
      (register_queries inp.reg c inp.startQueries).2 := by
  have hgp : get_peers inp c lookup_id ih false bt true =
      get_peers_lookup inp c lookup_id ih false := by
    simp [get_peers, hhit]
  rw [hgp]
  refine ⟨?_, ?_, ?_⟩
  · intro lid pr nd
    by_cases htr : inp.trackerPeers = [] <;> simp [get_peers_lookup, htr]
  · by_cases htr : inp.trackerPeers = [] <;> simp [get_peers_lookup, htr]
  · by_cases htr : inp.trackerPeers = [] <;>
      simp [get_peers_lookup, htr, register_queries]
    by_cases hs : inp.startQueries = [] <;> simp [hs]

/-- C10 witness: concrete call with a cache hit but no callback. -/
theorem C10_witness :
    (∀ lid pr nd, Event.callback lid pr nd ∉
      (get_peers ⟨0, [], [3], fun _ => ⟨0, [Datagram.rawQuery 3]⟩⟩
        ⟨1, 0, 0, 0, [⟨0, 9, [4]⟩]⟩ 42 9 false 6881 true).events) ∧
    Event.lookupCreate ∈
      (get_peers ⟨0, [], [3], fun _ => ⟨0, [Datagram.rawQuery 3]⟩⟩
        ⟨1, 0, 0, 0, [⟨0, 9, [4]⟩]⟩ 42 9 false 6881 true).events ∧
    (get_peers ⟨0, [], [3], fun _ => ⟨0, [Datagram.rawQuery 3]⟩⟩
        ⟨1, 0, 0, 0, [⟨0, 9, [4]⟩]⟩ 42 9 false 6881 true).datagrams =
      (register_queries (fun _ => ⟨0, [Datagram.rawQuery 3]⟩)
        ⟨1, 0, 0, 0, [⟨0, 9, [4]⟩]⟩ [3]).2 :=
  C10_nil_callback ⟨0, [], [3], fun _ => ⟨0, [Datagram.rawQuery 3]⟩⟩
    ⟨1, 0, 0, 0, [⟨0, 9, [4]⟩]⟩ 42 9 [4] 6881
    (by norm_num [get_cached_peers, CACHE_VALID_PERIOD])

/-! ## on_datagram_received claims -/

/-- Both branches of the common tail keep the event list passed to them. -/
theorem finish_datagram_events (inp : DatagramInput) (c : Controller)
    (evs : List Event) (dgs : List Datagram) :
    (finish_datagram inp c evs dgs).events = evs := by
  rw [finish_datagram]; split <;> rfl

/-- C6: an inbound QUERY whose source id equals the local id is dropped with
no side effects: state unchanged, no events (no responder call, no routing or
experimental notification, no callback), `(next_main_loop_call_ts, [])`
returned. -/
theorem C6_self_query_dropped (inp : DatagramInput) (c : Controller) (msg : Msg)
    (hdec : inp.decoded = some msg) (hq : msg.type = MsgKind.query)
    (hid : msg.src_node.id = c.my_id) :
    on_datagram_received inp c =
      { ctrl := c, events := [], next_tick_ts := c.next_main_loop_call_ts,
        datagrams := [] } := by
  simp [on_datagram_received, hdec, hq, hid]

/-- C6 witness: a concrete self-originated query is dropped. -/
theorem C6_witness :
    on_datagram_received
      ⟨0, some ⟨MsgKind.query, ⟨5, 77⟩, 0⟩, 5, [1], some 9, none, [2],
        fun _ => ⟨0, [Datagram.rawQuery 0]⟩⟩ ⟨77, 3, 4, 6, []⟩ =
      { ctrl := ⟨77, 3, 4, 6, []⟩, events := [], next_tick_ts := 6, datagrams := [] } :=
  C6_self_query_dropped
    ⟨0, some ⟨MsgKind.query, ⟨5, 77⟩, 0⟩, 5, [1], some 9, none, [2],
      fun _ => ⟨0, [Datagram.rawQuery 0]⟩⟩ ⟨77, 3, 4, 6, []⟩
    ⟨MsgKind.query, ⟨5, 77⟩, 0⟩ rfl rfl rfl

/-- C7: a RESPONSE or ERROR with no matching outstanding query is dropped
with no side effects: state unchanged, no events, `(next_main_loop_call_ts,
[])` returned. -/
theorem C7_unmatched_dropped (inp : DatagramInput) (c : Controller) (msg : Msg)
    (hdec : inp.decoded = some msg)
    (ht : msg.type = MsgKind.response ∨ msg.type = MsgKind.error)
    (hrel : inp.related = none) :
    on_datagram_received inp c =
      { ctrl := c, events := [], next_tick_ts := c.next_main_loop_call_ts,
        datagrams := [] } := by
  rcases ht with h | h <;> simp [on_datagram_received, hdec, h, hrel]

/-- C7 witness: a concrete unmatched response is dropped. -/
theorem C7_witness :
    on_datagram_received
      ⟨0, some ⟨MsgKind.response, ⟨5, 8⟩, 1⟩, 5, [1], none, none, [2],
        fun _ => ⟨0, [Datagram.rawQuery 0]⟩⟩ ⟨77, 3, 4, 6, []⟩ =
      { ctrl := ⟨77, 3, 4, 6, []⟩, events := [], next_tick_ts := 6, datagrams := [] } :=
  C7_unmatched_dropped
    ⟨0, some ⟨MsgKind.response, ⟨5, 8⟩, 1⟩, 5, [1], none, none, [2],
      fun _ => ⟨0, [Datagram.rawQuery 0]⟩⟩ ⟨77, 3, 4, 6, []⟩
    ⟨MsgKind.response, ⟨5, 8⟩, 1⟩ rfl (Or.inl rfl) rfl

/-- C8: for a matched RESPONSE whose lookup yields a non-empty peer batch and
whose callback is callable, the cache write for that batch immediately
precedes the callback invocation in the event order of
`on_datagram_received`. -/
theorem C8_cache_before_callback (inp : DatagramInput) (c : Controller) (msg : Msg)
    (rel : RelatedData) (lo : LookupRespData)
    (hdec : inp.decoded = some msg) (ht : msg.type = MsgKind.response)
    (hrel : inp.related = some rel) (hlo : rel.lookupObj = some lo)
    (hpeers : lo.peers ≠ []) (hcb : lo.callback = true) :
    ∃ pre post, (on_datagram_received inp c).events =
      pre ++ Event.cacheAdd lo.infoHash lo.peers ::
        Event.callback lo.lookup_id (some lo.peers) (some msg.src_node) :: post := by
  cases hdone : lo.done
  · refine ⟨[Event.expNotify], [Event.routingNotify], ?_⟩
    simp [on_datagram_received, hdec, ht, hrel, hlo, hpeers, hcb, hdone,
      finish_datagram_events]
  · refine ⟨[Event.expNotify],
      [Event.callback lo.lookup_id none (some msg.src_node), Event.routingNotify], ?_⟩
    simp [on_datagram_received, hdec, ht, hrel, hlo, hpeers, hcb, hdone,
      finish_datagram_events]

/-- C8 witness: a concrete matched response carrying one peer. -/
theorem C8_witness :
    ∃ pre post,
      (on_datagram_received
        ⟨0, some ⟨MsgKind.response, ⟨5, 8⟩, 1⟩, 5, [], none,
          some ⟨some ⟨42, 9, true, [], [4], false, []⟩⟩, [],
          fun _ => ⟨0, []⟩⟩ ⟨77, 3, 4, 6, []⟩).events =
      pre ++ Event.cacheAdd 9 [4] ::
        Event.callback 42 (some [4]) (some ⟨5, 8⟩) :: post :=
  C8_cache_before_callback
    ⟨0, some ⟨MsgKind.response, ⟨5, 8⟩, 1⟩, 5, [], none,
      some ⟨some ⟨42, 9, true, [], [4], false, []⟩⟩, [],
      fun _ => ⟨0, []⟩⟩ ⟨77, 3, 4, 6, []⟩
    ⟨MsgKind.response, ⟨5, 8⟩, 1⟩ ⟨some ⟨42, 9, true, [], [4], false, []⟩⟩
    ⟨42, 9, true, [], [4], false, []⟩ rfl rfl rfl rfl (by simp) rfl

/-- C9 counterexample: an inbound QUERY the responder does not answer
(`get_response` returns `None`) can still produce outbound datagrams, because
the routing manager's maintenance queries are registered and returned; here
one maintenance query yields one datagram, so the batch is not empty. -/
theorem C9_counterexample :
    (on_datagram_received
      ⟨0, some ⟨MsgKind.query, ⟨5, 3⟩, 0⟩, 5, [], none, none, [11],
        fun _ => ⟨0, [Datagram.wire 99 5]⟩⟩ ⟨77, 0, 0, 0, []⟩).datagrams =
      [Datagram.wire 99 5] := by
  simp [on_datagram_received, finish_datagram, register_queries]

/-- C9 (amended): an inbound QUERY of unknown kind (responder returns no
response) contributes no response datagram of its own: the returned batch
consists exactly of the datagrams from registering the routing manager's
maintenance queries followed by those from registering the experimental
manager's queries; in particular, when both lists are empty the batch is
empty and the state is unchanged. -/
theorem C9_unknown_query_no_response (inp : DatagramInput) (c : Controller) (msg : Msg)
    (hdec : inp.decoded = some msg) (ht : msg.type = MsgKind.query)
    (hid : msg.src_node.id ≠ c.my_id)
    (hresp : inp.responderResponse = none) :
    (on_datagram_received inp c).datagrams =
      (register_queries inp.reg c inp.maintenanceQueries).2 ++
      (register_queries inp.reg c inp.expQueries).2 ∧
    (inp.maintenanceQueries = [] → inp.expQueries = [] →
      (on_datagram_received inp c).datagrams = [] ∧
      (on_datagram_received inp c).ctrl = c) := by
  constructor
  · by_cases hexp : inp.expQueries = [] <;>
      by_cases hm : inp.maintenanceQueries = [] <;>
      simp [on_datagram_received, finish_datagram, register_queries,
        hdec, ht, hid, hresp, hexp, hm]
  · intro hm hexp
    constructor <;>
      simp [on_datagram_received, finish_datagram, register_queries,
        hdec, ht, hid, hresp, hm, hexp]

/-- C9 witness: a concrete unknown query whose routing manager emits one
maintenance query: the batch is exactly that query's registered datagram. -/
theorem C9_witness :
    (on_datagram_received
      ⟨0, some ⟨MsgKind.query, ⟨5, 3⟩, 0⟩, 5, [], none, none, [11],
        fun _ => ⟨0, [Datagram.wire 99 5]⟩⟩ ⟨77, 0, 0, 0, []⟩).datagrams =
      (register_queries (fun _ => ⟨0, [Datagram.wire 99 5]⟩) ⟨77, 0, 0, 0, []⟩ [11]).2 ++
      (register_queries (fun _ => ⟨0, [Datagram.wire 99 5]⟩) ⟨77, 0, 0, 0, []⟩ []).2 ∧
    (([11] : List Query) = [] → ([] : List Query) = [] →
      (on_datagram_received
        ⟨0, some ⟨MsgKind.query, ⟨5, 3⟩, 0⟩, 5, [], none, none, [11],
          fun _ => ⟨0, [Datagram.wire 99 5]⟩⟩ ⟨77, 0, 0, 0, []⟩).datagrams = [] ∧
      (on_datagram_received
        ⟨0, some ⟨MsgKind.query, ⟨5, 3⟩, 0⟩, 5, [], none, none, [11],
          fun _ => ⟨0, [Datagram.wire 99 5]⟩⟩ ⟨77, 0, 0, 0, []⟩).ctrl =
        ⟨77, 0, 0, 0, []⟩) :=
  C9_unknown_query_no_response
    ⟨0, some ⟨MsgKind.query, ⟨5, 3⟩, 0⟩, 5, [], none, none, [11],
      fun _ => ⟨0, [Datagram.wire 99 5]⟩⟩ ⟨77, 0, 0, 0, []⟩
    ⟨MsgKind.query, ⟨5, 3⟩, 0⟩ rfl rfl (by simp) rfl

/-! ## main_loop claims -/

/-- C1: the code violates the claim.  At a tick whose timeout sweep
dispatches one timed-out query for which the experimental manager returns a
non-empty query list, `_on_timeout` evaluates the undefined name
`datagrams_to_send` and raises `NameError`; the exception propagates out of
`main_loop`, so the call does not return a `(next_tick_ts, datagrams)` pair
and the timed-out queries are lost. -/
theorem C1_timeout_name_error :
    (on_timeout (fun _ => ⟨2, []⟩) ⟨7, 10, 0, 0, []⟩ ⟨[5], none, []⟩).result =
        Except.error PyError.nameError ∧
    (main_loop ⟨0, 0, (1, [⟨[5], none, []⟩]), ⟨1, [], none⟩, fun _ => ⟨2, []⟩⟩
        ⟨7, 10, 0, 0, []⟩).result = Except.error PyError.nameError := by
  constructor
  · simp [on_timeout]
  · norm_num [main_loop, process_timeouts, on_timeout, register_queries]

/-- A timeout sweep that raises no exception leaves the Controller state
unchanged: `_on_timeout` touches `self` only on the path that raises. -/
theorem process_timeouts_ok_ctrl (reg : RegOracle) :
    ∀ (l : List TimeoutCase) (c c2 : Controller) (acc qs : List Query)
      (evs evs2 : List Event),
      process_timeouts reg c acc evs l = (c2, evs2, Except.ok qs) → c2 = c := by
  intro l
  induction l with
  | nil =>
      intro c c2 acc qs evs evs2 h
      simp only [process_timeouts] at h
      injection h with h1 h2
      exact h1.symm
  | cons tc rest ihr =>
      intro c c2 acc qs evs evs2 h
      by_cases hexp : tc.expQueries = []
      · simp only [process_timeouts, on_timeout, hexp, if_true, if_pos] at h
        exact ihr _ _ _ _ _ _ h
      · simp [process_timeouts, on_timeout, hexp] at h

/-- `_register_queries` can only lower `next_main_loop_call_ts`, keeps it
above `now` when the querier reports deadlines above `now`, and never touches
`next_maintenance_ts`. -/
theorem register_queries_fst_bounds (reg : RegOracle) (now : Time) (c : Controller)
    (qs : List Query) (hreg : ∀ l, now < (reg l).timeout_call_ts) :
    (register_queries reg c qs).1.next_main_loop_call_ts ≤ c.next_main_loop_call_ts ∧
    (now < c.next_main_loop_call_ts →
      now < (register_queries reg c qs).1.next_main_loop_call_ts) ∧
    (register_queries reg c qs).1.next_maintenance_ts = c.next_maintenance_ts := by
  rw [register_queries]
  split
  · exact ⟨le_refl _, fun h => h, rfl⟩
  · exact ⟨min_le_left _ _, fun h => lt_min h (hreg _), rfl⟩

/-- C2 (amended): for a non-rate-limited tick that returns normally, with the
querier reporting only deadlines later than `now` and a positive maintenance
delay, the returned `next_tick_ts` satisfies `now < next_tick_ts ≤ now + 1`,
and `next_tick_ts ≤ next_maintenance_ts` (on exit) whenever the maintenance
sweep ran; the claimed bound by `next_timeout_ts` does not hold in general. -/
theorem C2_tick_bounds (inp : TickInput) (c cf : Controller) (evsf : List Event)
    (t : Time) (dgs : List Datagram)
    (hrl : inp.now ≥ c.next_main_loop_call_ts)
    (hreg : ∀ qs, inp.now < (inp.reg qs).timeout_call_ts)
    (hdelay : 0 < inp.maintenance.delay)
    (hM : main_loop inp c = ⟨cf, evsf, Except.ok (t, dgs)⟩) :
    inp.now < t ∧ t ≤ inp.now + 1 ∧
      (inp.now2 ≥ c.next_maintenance_ts → t ≤ cf.next_maintenance_ts) := by
  unfold main_loop at hM
  rw [if_pos hrl] at hM
  dsimp only at hM
  split at hM
  · simp at hM
  · rename_i sw c2 evs2 queries heq
    split at heq
    · rename_i hsw
      have hc2 := process_timeouts_ok_ctrl inp.reg inp.sweep.2 _ _ _ _ _ _ heq
      subst hc2
      dsimp only at hM
      split at hM
      · rename_i hmnt
        simp only [TickResult.mk.injEq, Except.ok.injEq, Prod.mk.injEq] at hM
        obtain ⟨hcf, -, ht, -⟩ := hM
        subst ht
        subst hcf
        refine ⟨?_, ?_, ?_⟩
        · exact (register_queries_fst_bounds inp.reg inp.now _ _ hreg).2.1
            (lt_min (by linarith) (by linarith))
        · exact le_trans (register_queries_fst_bounds inp.reg inp.now _ _ hreg).1
            (min_le_left _ _)
        · intro _
          rw [(register_queries_fst_bounds inp.reg inp.now _ _ hreg).2.2]
          exact le_trans (register_queries_fst_bounds inp.reg inp.now _ _ hreg).1
            (min_le_right _ _)
      · rename_i hmnt
        simp only [TickResult.mk.injEq, Except.ok.injEq, Prod.mk.injEq] at hM
        obtain ⟨hcf, -, ht, -⟩ := hM
        subst ht
        subst hcf
        refine ⟨?_, ?_, ?_⟩
        · exact (register_queries_fst_bounds inp.reg inp.now _ _ hreg).2.1
            (show inp.now < inp.now + 1 by linarith)
        · exact (register_queries_fst_bounds inp.reg inp.now _ _ hreg).1
        · intro him
          exact absurd him hmnt
    · rename_i hsw
      injection heq with h1 h2
      injection h2 with h2a h2b
      injection h2b with h2c
      subst h1
      subst h2c
      dsimp only at hM
      split at hM
      · rename_i hmnt
        simp only [TickResult.mk.injEq, Except.ok.injEq, Prod.mk.injEq] at hM
        obtain ⟨hcf, -, ht, -⟩ := hM
        subst ht
        subst hcf
        refine ⟨?_, ?_, ?_⟩
        · exact (register_queries_fst_bounds inp.reg inp.now _ _ hreg).2.1
            (lt_min (by linarith) (by linarith))
        · exact le_trans (register_queries_fst_bounds inp.reg inp.now _ _ hreg).1
            (min_le_left _ _)
        · intro _
          rw [(register_queries_fst_bounds inp.reg inp.now _ _ hreg).2.2]
          exact le_trans (register_queries_fst_bounds inp.reg inp.now _ _ hreg).1
            (min_le_right _ _)
      · rename_i hmnt
        simp only [TickResult.mk.injEq, Except.ok.injEq, Prod.mk.injEq] at hM
        obtain ⟨hcf, -, ht, -⟩ := hM
        subst ht
        subst hcf
        refine ⟨?_, ?_, ?_⟩
        · exact (register_queries_fst_bounds inp.reg inp.now _ _ hreg).2.1
            (show inp.now < inp.now + 1 by linarith)
        · exact (register_queries_fst_bounds inp.reg inp.now _ _ hreg).1
        · intro him
          exact absurd him hmnt

/-- C2 counterexample: a non-rate-limited tick at `now = 0` whose timeout
sweep finds no expired query but learns the next deadline is `1/2` returns
`next_tick_ts = 1`, which exceeds
`min (next_timeout_ts, next_maintenance_ts) = 1/2` on exit: the timeout sweep
never lowers `next_main_loop_call_ts` to the new `next_timeout_ts`. -/
theorem C2_counterexample :
    (main_loop ⟨0, 0, (1/2, []), ⟨5, [], none⟩, fun _ => ⟨1, []⟩⟩
        ⟨7, 100, 0, 0, []⟩).result = Except.ok (1, []) ∧
    (main_loop ⟨0, 0, (1/2, []), ⟨5, [], none⟩, fun _ => ⟨1, []⟩⟩
        ⟨7, 100, 0, 0, []⟩).ctrl.next_timeout_ts = 1/2 ∧
    (main_loop ⟨0, 0, (1/2, []), ⟨5, [], none⟩, fun _ => ⟨1, []⟩⟩
        ⟨7, 100, 0, 0, []⟩).ctrl.next_maintenance_ts = 100 ∧
    ¬((1 : Time) ≤ min ((1 : Time)/2) 100) := by
  refine ⟨?_, ?_, ?_, ?_⟩
  · norm_num [main_loop, process_timeouts, register_queries]
  · norm_num [main_loop, process_timeouts, register_queries]
  · norm_num [main_loop, process_timeouts, register_queries]
  · rw [min_eq_left (by norm_num : ((1 : Time)/2) ≤ 100)]
    norm_num

/-- C2 witness: the amended bounds at a concrete tick at `now = 2` whose
maintenance sweep runs with delay 1. -/
theorem C2_witness :
    (2 : Time) < 3 ∧ (3 : Time) ≤ 2 + 1 ∧ ((2 : Time) ≥ 2 → (3 : Time) ≤ 3) :=
  C2_tick_bounds ⟨2, 2, (4, []), ⟨1, [], none⟩, fun _ => ⟨10, []⟩⟩ ⟨7, 2, 5, 2, []⟩
    ⟨7, 3, 5, 3, []⟩ [] 3 []
    (by norm_num) (fun _ => by norm_num) (by norm_num)
    (by norm_num [main_loop, process_timeouts, register_queries])
